import Mathlib

/-!
Verification of the receiptly-api backend (src/index.ts).

The development shallowly embeds the service's pure core: the CSV field
formatters (csvEscape, formatNumber, formatDate), the model-response JSON
extractor (extractJson), the JSON-parse step of the analysis pipeline, the
token-verification helper (authenticate) and the receipt CSV export handler.

Modelling conventions:
- JavaScript values reaching the formatters are untyped (`any`); they are
  embedded as the inductive `JSVal` (null, undefined, string, number, bool).
- JavaScript numbers are IEEE-754 doubles, i.e. exact rationals; they are
  embedded as `JSNum`: NaN, the two infinities, or a finite exact rational
  represented as an integer numerator with a positive natural denominator
  (not necessarily reduced).  Double rounding of arithmetic is not modelled;
  every number in the claims is embedded as the exact rational value of the
  corresponding double.
- Strings are processed as `List Char`; `String` appears only at interfaces.
-/

namespace Receiptly

/-- JavaScript number: NaN, +Infinity, -Infinity, or a finite value given as
an exact rational `num / den` (`den` is intended positive; values produced by
this development always have a positive denominator). -/
inductive JSNum where
  | nan : JSNum
  | inf : JSNum
  | negInf : JSNum
  | finite (num : Int) (den : Nat) : JSNum
deriving DecidableEq, Repr

/-- Untyped JavaScript value as it reaches the `any`-typed helpers. -/
inductive JSVal where
  | null : JSVal
  | undefined : JSVal
  | str (s : String) : JSVal
  | num (n : JSNum) : JSVal
  | bool (b : Bool) : JSVal
deriving DecidableEq, Repr

/-- Left and right brace characters (written via code points). -/
def lbrace : Char := Char.ofNat 123

/-- Right brace character. -/
def rbrace : Char := Char.ofNat 125

/-- JavaScript whitespace (the `\s` class and the `String.prototype.trim`
set): ASCII whitespace, NBSP, the Unicode space separators, line/paragraph
separators and the BOM. -/
def jsWS (c : Char) : Bool :=
  c = ' ' || c = '\t' || c = '\n' || c = '\x0b' || c = '\x0c' || c = '\r' ||
  c.val = 160 || c.val = 0x1680 || (0x2000 ≤ c.val && c.val ≤ 0x200a) ||
  c.val = 0x2028 || c.val = 0x2029 || c.val = 0x202f || c.val = 0x205f ||
  c.val = 0x3000 || c.val = 0xfeff

/-- JavaScript `String.prototype.trim` on a character list. -/
def jsTrimL (l : List Char) : List Char :=
  ((l.dropWhile jsWS).reverse.dropWhile jsWS).reverse

/-- Decimal digit characters used when rendering numbers. -/
def digitChar (m : Nat) : Char :=
  match m with
  | 0 => '0' | 1 => '1' | 2 => '2' | 3 => '3' | 4 => '4'
  | 5 => '5' | 6 => '6' | 7 => '7' | 8 => '8' | _ => '9'

/-- Decimal digit characters of a natural number, most significant first
(fuel-based structural recursion so that the kernel can evaluate it). -/
def natCharsAux : Nat → Nat → List Char
  | 0, _ => []
  | fuel + 1, n =>
    if n < 10 then [digitChar n]
    else natCharsAux fuel (n / 10) ++ [digitChar (n % 10)]

/-- Decimal rendering of a natural number ("0", "1", ..., "12", ...). -/
def natChars (n : Nat) : List Char := natCharsAux (n + 1) n

/-- Two-digit zero-padded rendering, used for the cents part of `toFixed(2)`
and the calendar fields of ISO dates. -/
def pad2 (n : Nat) : List Char :=
  if n < 10 then '0' :: natChars n else natChars n

/-- Three-digit zero-padded rendering (milliseconds of ISO strings). -/
def pad3 (n : Nat) : List Char :=
  if n < 100 then '0' :: pad2 n else natChars n

/-- Left-pad a digit list with zeros to the given width. -/
def padZeros (w : Nat) (l : List Char) : List Char :=
  List.replicate (w - l.length) '0' ++ l

/-! ### String(value): JavaScript number-to-string and value-to-string -/

/-- Decimal expansion search: smallest `k ≤ fuel` such that `10^k * n` is
divisible by `d` (doubles are dyadic, so `k = 1100` always suffices for
values produced by the embedding). -/
def decScale : Nat → Nat → Nat → Option Nat
  | 0, n, d => if n % d = 0 then some 0 else none
  | fuel + 1, n, d =>
    if n % d = 0 then some 0
    else (decScale fuel (n * 10) d).map (· + 1)

/-- Strip trailing zeros of a digit list (used for the fractional part). -/
def stripTrailingZeros (l : List Char) : List Char :=
  (l.reverse.dropWhile (· = '0')).reverse

/-- JavaScript `String(number)` for a finite value `n / d`.  Renders the
exact terminating decimal expansion with no trailing fractional zeros
("12", "0.5", "-3.25").  Deviation from ECMAScript `Number::toString`, noted
for honesty: JS prints the shortest round-tripping decimal and switches to
exponential notation for magnitudes outside `[1e-7, 1e21)`; no claim in this
development depends on a value in that regime. -/
def finiteToChars (n : Int) (d : Nat) : List Char :=
  let sgn : List Char := if n < 0 then ['-'] else []
  match decScale 1100 n.natAbs d with
  | none => sgn ++ natChars (n.natAbs / d)
  | some k =>
    let w := n.natAbs * 10 ^ k / d
    if k = 0 then sgn ++ natChars w
    else
      let digs := padZeros (k + 1) (natChars w)
      let whole := digs.take (digs.length - k)
      let frac := stripTrailingZeros (digs.drop (digs.length - k))
      if frac.isEmpty then sgn ++ whole else sgn ++ whole ++ ['.'] ++ frac

/-- JavaScript `String(number)`. -/
def jsNumToChars : JSNum → List Char
  | .nan => ("NaN").toList
  | .inf => ("Infinity").toList
  | .negInf => ("-Infinity").toList
  | .finite n d => finiteToChars n d

/-- JavaScript `String(value)` for the values the formatters receive. -/
def jsStringOf : JSVal → List Char
  | .null => ("null").toList
  | .undefined => ("undefined").toList
  | .str s => s.toList
  | .num n => jsNumToChars n
  | .bool true => ("true").toList
  | .bool false => ("false").toList

/-! ### csvEscape (src/index.ts lines 79-86) -/

/-- Does the character force CSV quoting?  The source tests `/[",\n]/`. -/
def csvSpecial (c : Char) : Bool := c = '"' || c = ',' || c = '\n'

/-- Double every double-quote (the `s.replace(/"/g, '""')` step). -/
def doubleQuotes : List Char → List Char
  | [] => []
  | c :: r => if c = '"' then '"' :: '"' :: doubleQuotes r else c :: doubleQuotes r

/-- Embedding of `csvEscape` (src/index.ts lines 79-86): null/undefined map
to the empty string; other values are stringified; if the string contains a
double quote, comma or newline it is wrapped in double quotes with internal
double quotes doubled. -/
def csvEscape (v : JSVal) : String :=
  match v with
  | .null => ""
  | .undefined => ""
  | _ =>
    let s := jsStringOf v
    if s.any csvSpecial then String.mk ('"' :: doubleQuotes s ++ ['"'])
    else String.mk s

/-! ### Number(value): JavaScript string-to-number conversion -/

/-- Hexadecimal digit value. -/
def hexVal (c : Char) : Option Nat :=
  if '0' ≤ c ∧ c ≤ '9' then some (c.toNat - 48)
  else if 'a' ≤ c ∧ c ≤ 'f' then some (c.toNat - 87)
  else if 'A' ≤ c ∧ c ≤ 'F' then some (c.toNat - 70)
  else none

/-- Read a maximal run of decimal digits; returns their value, their count
and the rest. -/
def readDigits : List Char → Nat → Nat → (Nat × Nat × List Char)
  | [], acc, cnt => (acc, cnt, [])
  | c :: r, acc, cnt =>
    if c.isDigit then readDigits r (acc * 10 + (c.toNat - 48)) (cnt + 1)
    else (acc, cnt, c :: r)

/-- Read a maximal run of digits of the given base (for 0x/0o/0b literals). -/
def readBaseDigits (base : Nat) : List Char → Nat → Nat → (Nat × Nat × List Char)
  | [], acc, cnt => (acc, cnt, [])
  | c :: r, acc, cnt =>
    match hexVal c with
    | some v => if v < base then readBaseDigits base r (acc * base + v) (cnt + 1)
                else (acc, cnt, c :: r)
    | none => (acc, cnt, c :: r)

/-- Unsigned decimal literal `digits [. digits] [e|E [+|-] digits]`; returns
the exact value as numerator/denominator.  Mirrors the `StrUnsignedDecimalLiteral`
grammar of ECMAScript `Number(string)`. -/
def readDecimalLit (l : List Char) : Option (Nat × Nat) :=
  let (ip, ic, r1) := readDigits l 0 0
  let (fp, fc, r2) :=
    match r1 with
    | '.' :: r => readDigits r 0 0
    | _ => (0, 0, r1)
  if ic = 0 ∧ fc = 0 then none
  else
    let mant := ip * 10 ^ fc + fp
    let withExp : Option (Nat × Nat × List Char) :=
      match r2 with
      | 'e' :: r | 'E' :: r =>
        match r with
        | '+' :: r3 =>
          let (ev, ec, r4) := readDigits r3 0 0
          if ec = 0 then none else some (ev, 0, r4)
        | '-' :: r3 =>
          let (ev, ec, r4) := readDigits r3 0 0
          if ec = 0 then none else some (0, ev, r4)
        | _ =>
          let (ev, ec, r4) := readDigits r 0 0
          if ec = 0 then none else some (ev, 0, r4)
      | _ => some (0, 0, r2)
    match withExp with
    | none => none
    | some (eplus, eminus, rest) =>
      if rest.isEmpty then
        if eplus ≥ fc + eminus then some (mant * 10 ^ (eplus - (fc + eminus)), 1)
        else some (mant, 10 ^ (fc + eminus - eplus))
      else none

/-- JavaScript `Number(string)`: trim, empty maps to 0, then a signed decimal
literal, `Infinity`, or an unsigned 0x/0o/0b literal; anything else is NaN.
The value is kept exact (rounding to the nearest double is not modelled). -/
def jsNumberOfChars (l : List Char) : JSNum :=
  let t := jsTrimL l
  match t with
  | [] => .finite 0 1
  | '0' :: x :: r =>
    if x = 'x' ∨ x = 'X' then
      match readBaseDigits 16 r 0 0 with
      | (v, c, rest) => if c ≠ 0 ∧ rest.isEmpty then .finite (Int.ofNat v) 1 else .nan
    else if x = 'o' ∨ x = 'O' then
      match readBaseDigits 8 r 0 0 with
      | (v, c, rest) => if c ≠ 0 ∧ rest.isEmpty then .finite (Int.ofNat v) 1 else .nan
    else if x = 'b' ∨ x = 'B' then
      match readBaseDigits 2 r 0 0 with
      | (v, c, rest) => if c ≠ 0 ∧ rest.isEmpty then .finite (Int.ofNat v) 1 else .nan
    else
      match readDecimalLit t with
      | some (n, d) => .finite (Int.ofNat n) d
      | none => .nan
  | '+' :: r =>
    if r = ("Infinity").toList then .inf
    else match readDecimalLit r with
      | some (n, d) => .finite (Int.ofNat n) d
      | none => .nan
  | '-' :: r =>
    if r = ("Infinity").toList then .negInf
    else match readDecimalLit r with
      | some (n, d) => .finite (-(Int.ofNat n)) d
      | none => .nan
  | _ =>
    if t = ("Infinity").toList then .inf
    else match readDecimalLit t with
      | some (n, d) => .finite (Int.ofNat n) d
      | none => .nan

/-- JavaScript `Number(value)` for the values the formatters receive. -/
def jsToNumber : JSVal → JSNum
  | .null => .finite 0 1
  | .undefined => .nan
  | .str s => jsNumberOfChars s.toList
  | .num n => n
  | .bool true => .finite 1 1
  | .bool false => .finite 0 1

/-! ### formatNumber (src/index.ts lines 88-93) -/

/-- ECMAScript `Number.prototype.toFixed(2)` for a finite non-negative value
`n / d`: the integer closest to `100 * n / d`, larger one on ties
(`⌊(200 n + d) / (2 d)⌋` in exact arithmetic). -/
def centsHalfUp (n : Nat) (d : Nat) : Nat := (200 * n + d) / (2 * d)

/-- ECMAScript `Number.prototype.toFixed(2)`.  NaN prints "NaN" (unreachable
from `formatNumber`, which tests `isNaN` first), infinities print via
`Number::toString`, and a finite value of magnitude at least `10^21` falls
back to `Number::toString` (here the exact-expansion rendering; see
`finiteToChars` for the noted deviation in that regime). -/
def jsToFixed2 : JSNum → List Char
  | .nan => ("NaN").toList
  | .inf => ("Infinity").toList
  | .negInf => ("-Infinity").toList
  | .finite n d =>
    if n.natAbs ≥ 10 ^ 21 * d then finiteToChars n d
    else
      let c := centsHalfUp n.natAbs d
      let sgn : List Char := if n < 0 then ['-'] else []
      sgn ++ natChars (c / 100) ++ ['.'] ++ pad2 (c % 100)

/-- Embedding of `formatNumber` (src/index.ts lines 88-93): null, undefined
and the empty string map to ""; otherwise the value is converted with
`Number(...)`, NaN maps to "", and the result is rendered with `toFixed(2)`. -/
def formatNumber (v : JSVal) : String :=
  if v = .null ∨ v = .undefined ∨ v = .str ("") then ""
  else
    match jsToNumber v with
    | .nan => ""
    | num => String.mk (jsToFixed2 num)

/-! ### extractJson (src/index.ts lines 261-275)

The source runs two regular expressions, `/```json\s*([\s\S]*?)\s*```/i` and
`/```\s*([\s\S]*?)\s*```/`, with `RegExp.prototype.exec` semantics: the
leftmost starting position wins; after the literal opening, the first `\s*`
is greedy, the capture group is lazy, so the group ends at the earliest
position from which `\s* ``` ` matches the remainder.  The functions below
implement exactly that backtracking behaviour. -/

/-- Case-insensitive character comparison (the `/i` flag). -/
def charCI (a b : Char) : Bool := a.toLower = b.toLower

/-- Does `pat` occur at the head of `l` (case-insensitively when `ci`)? -/
def matchesAt (pat : List Char) (ci : Bool) (l : List Char) : Bool :=
  match pat, l with
  | [], _ => true
  | _ :: _, [] => false
  | p :: ps, c :: cs => (if ci then charCI p c else p = c) && matchesAt ps ci cs

/-- The closing fence literal. -/
def tick3 : List Char := ("```").toList

/-- The labeled opening literal of the first regex. -/
def tickJson : List Char := ("```json").toList

/-- Does `\s*```** match a prefix of `l`?  (Used to decide where the lazy
capture group may stop.) -/
def wsThenClose : List Char → Bool
  | [] => false
  | c :: cs => matchesAt tick3 false (c :: cs) || (jsWS c && wsThenClose cs)

/-- The lazy capture group: the shortest prefix of `l` after which
`\s*```** matches; `none` when no closing fence follows. -/
def lazyGroup : List Char → Option (List Char)
  | [] => none
  | c :: cs =>
    if wsThenClose (c :: cs) then some []
    else (lazyGroup cs).map (c :: ·)

/-- Raw captured group of `OPEN\s*([\s\S]*?)\s*``` ` matched at the start of
`l` (which is the text right after the opening literal): the greedy `\s*`
first consumes the maximal whitespace run, then the lazy group runs. -/
def groupAfterOpen (l : List Char) : Option (List Char) :=
  lazyGroup (l.dropWhile jsWS)

/-- RegExp `exec` for the fence patterns: scan for the leftmost position at
which the opening literal matches and a closing fence follows; return the raw
captured group there. -/
def execFence (openPat : List Char) (ci : Bool) : List Char → Option (List Char)
  | [] => none
  | c :: cs =>
    if matchesAt openPat ci (c :: cs) then
      match groupAfterOpen ((c :: cs).drop openPat.length) with
      | some g => some g
      | none => execFence openPat ci cs
    else execFence openPat ci cs

/-- First index of a character satisfying `p` (JS `indexOf`). -/
def firstIdx (p : Char → Bool) (l : List Char) : Option Nat := l.findIdx? p

/-- Last index of a character satisfying `p` (JS `lastIndexOf`). -/
def lastIdx (p : Char → Bool) (l : List Char) : Option Nat :=
  (l.reverse.findIdx? p).map (fun i => l.length - 1 - i)

/-- Embedding of `extractJson` (src/index.ts lines 261-275).  Empty input is
falsy and yields null.  Then, in order: the `json`-labeled fence regex (its
result is used only when the captured group is a truthy, i.e. non-empty,
string — `fenceJson && fenceJson[1]`), the unlabeled fence regex (same
truthiness test), and finally the substring from the first `{` to the last
`}` inclusive provided the first occurs strictly before the last. -/
def extractJson (s : String) : Option String :=
  let l := s.toList
  if l.isEmpty then none
  else
    let onBrace : Option String :=
      match firstIdx (· = lbrace) l, lastIdx (· = rbrace) l with
      | some f, some last =>
        if f < last then some (String.mk ((l.drop f).take (last + 1 - f))) else none
      | _, _ => none
    match execFence tickJson true l with
    | some g =>
      if g.isEmpty then
        match execFence tick3 false l with
        | some g2 =>
          if g2.isEmpty then onBrace else some (String.mk (jsTrimL g2))
        | none => onBrace
      else some (String.mk (jsTrimL g))
    | none =>
      match execFence tick3 false l with
      | some g2 =>
        if g2.isEmpty then onBrace else some (String.mk (jsTrimL g2))
      | none => onBrace

/-! ### Specification-side description of the extractor (spec §4.3)

These definitions restate the spec's four priority rules as standalone
functions, to be compared with the source-shaped `extractJson`. -/

/-- Rule 1 of spec §4.3 exactly as worded: a fenced block explicitly
labeled `json` (case-insensitive tag) — return its trimmed inner content,
with no further condition. -/
def specFenceJson (l : List Char) : Option (List Char) :=
  (execFence tickJson true l).map jsTrimL

/-- Rule 2 of spec §4.3 exactly as worded: any fenced block — return its
trimmed inner content, with no further condition. -/
def specFenceAny (l : List Char) : Option (List Char) :=
  (execFence tick3 false l).map jsTrimL

/-- Rule 1 amended with the code's truthiness test (`fenceJson &&
fenceJson[1]`, src/index.ts line 265): the labeled fence only wins when its
captured body is non-empty; an empty capture falls through to the next
rule. -/
def fenceJsonTruthy (l : List Char) : Option (List Char) :=
  match execFence tickJson true l with
  | some g => if g.isEmpty then none else some (jsTrimL g)
  | none => none

/-- Rule 2 amended with the code's truthiness test (`fence && fence[1]`,
src/index.ts line 267): any fence, but only with a non-empty captured
body. -/
def fenceAnyTruthy (l : List Char) : Option (List Char) :=
  match execFence tick3 false l with
  | some g => if g.isEmpty then none else some (jsTrimL g)
  | none => none

/-- Rule 3 of spec §4.3: the substring from the first `{` to the last `}`
inclusive, provided the first `{` occurs strictly before the last `}`. -/
def specBraceSlice (l : List Char) : Option (List Char) :=
  match firstIdx (· = lbrace) l, lastIdx (· = rbrace) l with
  | some f, some last =>
    if f < last then some ((l.drop f).take (last + 1 - f)) else none
  | _, _ => none

/-! ### JSON.parse as a validity checker (used by POST /analyze-receipt)

The analysis handler calls the ECMAScript built-in `JSON.parse` on the
extracted candidate; a syntax error is thrown and lands in the handler's
generic catch block.  Only parse success/failure is observable in the
response shape, so the built-in is embedded as a boolean syntax checker for
the ECMA-404 grammar (fuel-based recursive descent). -/

/-- JSON insignificant whitespace. -/
def jsonWS (c : Char) : Bool := c = ' ' || c = '\t' || c = '\n' || c = '\r'

/-- Skip JSON whitespace. -/
def skipJsonWS (l : List Char) : List Char := l.dropWhile jsonWS

/-- Consume the remainder of a JSON string after the opening quote. -/
def jsonStrRest : List Char → Option (List Char)
  | [] => none
  | '"' :: r => some r
  | '\\' :: e :: r =>
    if e = '"' ∨ e = '\\' ∨ e = '/' ∨ e = 'b' ∨ e = 'f' ∨ e = 'n' ∨ e = 'r' ∨ e = 't'
    then jsonStrRest r
    else if e = 'u' then
      match r with
      | a :: b :: c :: d :: r2 =>
        if (hexVal a).isSome ∧ (hexVal b).isSome ∧ (hexVal c).isSome ∧ (hexVal d).isSome
        then jsonStrRest r2 else none
      | _ => none
    else none
  | c :: r => if c.val < 32 then none else jsonStrRest r

/-- Consume a JSON number: `-? (0 | [1-9][0-9]*) frac? exp?`. -/
def jsonNumRest (l : List Char) : Option (List Char) :=
  let afterSign := match l with | '-' :: r => some r | _ => some l
  match afterSign with
  | none => none
  | some l1 =>
    let afterInt : Option (List Char) :=
      match l1 with
      | '0' :: r => some r
      | c :: r => if c.isDigit then some (r.dropWhile Char.isDigit) else none
      | [] => none
    match afterInt with
    | none => none
    | some l2 =>
      let afterFrac : Option (List Char) :=
        match l2 with
        | '.' :: c :: r => if c.isDigit then some (r.dropWhile Char.isDigit) else none
        | '.' :: [] => none
        | _ => some l2
      match afterFrac with
      | none => none
      | some l3 =>
        match l3 with
        | 'e' :: r | 'E' :: r =>
          let r2 := match r with | '+' :: r3 => r3 | '-' :: r3 => r3 | _ => r
          match r2 with
          | c :: r4 => if c.isDigit then some (r4.dropWhile Char.isDigit) else none
          | [] => none
        | _ => some l3

mutual

/-- Consume a JSON value; fuel bounds the nesting depth. -/
def jsonVal : Nat → List Char → Option (List Char)
  | 0, _ => none
  | fuel + 1, l =>
    match l with
    | '"' :: r => jsonStrRest r
    | 't' :: r => if matchesAt (("rue").toList) false r then some (r.drop 3) else none
    | 'f' :: r => if matchesAt (("alse").toList) false r then some (r.drop 4) else none
    | 'n' :: r => if matchesAt (("ull").toList) false r then some (r.drop 3) else none
    | c :: r =>
      if c = lbrace then
        let r2 := skipJsonWS r
        match r2 with
        | c2 :: r3 => if c2 = rbrace then some r3 else jsonMembers fuel r2
        | [] => none
      else if c = '[' then
        let r2 := skipJsonWS r
        match r2 with
        | ']' :: r3 => some r3
        | _ => jsonElems fuel r2
      else jsonNumRest (c :: r)
    | [] => none

/-- Consume one or more `string : element` members followed by `}`. -/
def jsonMembers : Nat → List Char → Option (List Char)
  | 0, _ => none
  | fuel + 1, l =>
    match l with
    | '"' :: r =>
      match jsonStrRest r with
      | none => none
      | some r2 =>
        match skipJsonWS r2 with
        | ':' :: r3 =>
          match jsonVal fuel (skipJsonWS r3) with
          | none => none
          | some r4 =>
            match skipJsonWS r4 with
            | ',' :: r5 => jsonMembers fuel (skipJsonWS r5)
            | c :: r5 => if c = rbrace then some r5 else none
            | [] => none
        | _ => none
    | _ => none

/-- Consume one or more array elements followed by `]`. -/
def jsonElems : Nat → List Char → Option (List Char)
  | 0, _ => none
  | fuel + 1, l =>
    match jsonVal fuel l with
    | none => none
    | some r =>
      match skipJsonWS r with
      | ',' :: r2 => jsonElems fuel (skipJsonWS r2)
      | ']' :: r2 => some r2
      | _ => none

end

/-- Does ECMAScript `JSON.parse` accept the string? -/
def jsonParseOk (s : String) : Bool :=
  let l := s.toList
  match jsonVal (2 * l.length + 2) (skipJsonWS l) with
  | some rest => (skipJsonWS rest).isEmpty
  | none => false

/-! ### POST /analyze-receipt response shaping (src/index.ts lines 232-257)

Only the post-model-response stage is embedded: the handler's `try` block
extracts a JSON candidate from the model text (502 with the raw text when
extraction fails) and then calls `JSON.parse`, whose syntax error is caught
by the same `catch` that handles provider failures (500). -/

/-- Caller-visible outcome of the analysis handler after the model call. -/
inductive AnalyzeResp where
  | ok (jsonText : String) : AnalyzeResp
  | modelFormatError (raw : String) : AnalyzeResp
  | analysisFailed : AnalyzeResp
deriving DecidableEq, Repr

/-- HTTP status of an analysis outcome: 200 on success, 502 with
`{error: "Model did not return JSON", raw}` on extraction failure, 500 with
`{error: "Failed to analyze receipt", details}` from the catch block. -/
def analyzeStatus : AnalyzeResp → Nat
  | .ok _ => 200
  | .modelFormatError _ => 502
  | .analysisFailed => 500

/-- Embedding of the response shaping of `POST /analyze-receipt`
(src/index.ts lines 241-257) as a function of the model response text. -/
def analyzeRespond (text : String) : AnalyzeResp :=
  match extractJson text with
  | none => .modelFormatError text
  | some jsonText =>
    if jsonParseOk jsonText then .ok jsonText else .analysisFailed

/-! ### formatDate (src/index.ts lines 95-105)

The source builds `new Date(d)` and renders `date.toISOString().split("T")[0]`.
The `Date` constructor is embedded for the ECMAScript Date Time String Format
(the only format the language standard guarantees): `YYYY[-MM[-DD]]` with an
optional `THH:mm[:ss[.sss]]` time and an optional `Z` or `±HH:mm` offset.
Date-only forms are UTC; date-time forms without an offset are local time,
so the embedding takes the host timezone offset (minutes east of UTC) as an
explicit parameter.  Out-of-range calendar components are rejected, as V8
rejects them for this format.  Hour `24` and the engine-specific fallback
formats (RFC 2822 etc.) are not modelled; inputs outside the modelled
grammar count as unparseable. -/

/-- Gregorian leap year (proleptic, as used by ECMAScript). -/
def isLeap (y : Int) : Bool := (y % 4 = 0 ∧ y % 100 ≠ 0) ∨ y % 400 = 0

/-- Days in a month. -/
def daysInMonth (y : Int) (m : Nat) : Nat :=
  if m = 2 then (if isLeap y then 29 else 28)
  else if m = 4 ∨ m = 6 ∨ m = 9 ∨ m = 11 then 30
  else 31

/-- Days since 1970-01-01 of a civil date (Hinnant's `days_from_civil`). -/
def daysFromCivil (y : Int) (m d : Nat) : Int :=
  let y2 := if m ≤ 2 then y - 1 else y
  let era := Int.fdiv y2 400
  let yoe := (y2 - era * 400).toNat
  let mp := (m + 9) % 12
  let doy := (153 * mp + 2) / 5 + d - 1
  let doe := yoe * 365 + yoe / 4 - yoe / 100 + doy
  era * 146097 + Int.ofNat doe - 719468

/-- Civil date of a count of days since 1970-01-01 (Hinnant's
`civil_from_days`): (year, month, day). -/
def civilFromDays (z0 : Int) : Int × Nat × Nat :=
  let z := z0 + 719468
  let era := Int.fdiv z 146097
  let doe := (z - era * 146097).toNat
  let yoe := (doe - doe / 1460 + doe / 36524 - doe / 146096) / 365
  let y := Int.ofNat yoe + era * 400
  let doy := doe - (365 * yoe + yoe / 4 - yoe / 100)
  let mp := (5 * doy + 2) / 153
  let d := doy - (153 * mp + 2) / 5 + 1
  let m := if mp < 10 then mp + 3 else mp - 9
  (if m ≤ 2 then y + 1 else y, m, d)

/-- Take exactly `n` decimal digits; value and rest. -/
def getDigits : Nat → List Char → Option (Nat × List Char)
  | 0, l => some (0, l)
  | _ + 1, [] => none
  | n + 1, c :: r =>
    if c.isDigit then
      (getDigits n r).map (fun (v, rest) => ((c.toNat - 48) * 10 ^ n + v, rest))
    else none

/-- Time-signature part after the date: `THH:mm[:ss[.sss]][Z|±HH:mm]`.
Returns milliseconds into the day paired with the zone offset in minutes
(`none` when the string carries no offset and is therefore local time). -/
def readTimeTail (l : List Char) : Option (Nat × Option Int) :=
  match getDigits 2 l with
  | none => none
  | some (hh, r1) =>
    match r1 with
    | ':' :: r2 =>
      match getDigits 2 r2 with
      | none => none
      | some (mi, r3) =>
        let secPart : Option (Nat × Nat × List Char) :=
          match r3 with
          | ':' :: r4 =>
            match getDigits 2 r4 with
            | none => none
            | some (ss, r5) =>
              match r5 with
              | '.' :: r6 =>
                match getDigits 3 r6 with
                | none => none
                | some (ms, r7) => some (ss, ms, r7)
              | _ => some (ss, 0, r5)
          | _ => some (0, 0, r3)
        match secPart with
        | none => none
        | some (ss, ms, rest) =>
          if hh ≤ 23 ∧ mi ≤ 59 ∧ ss ≤ 59 then
            let tod := ((hh * 60 + mi) * 60 + ss) * 1000 + ms
            match rest with
            | [] => some (tod, none)
            | ['Z'] => some (tod, some 0)
            | '+' :: r8 =>
              match getDigits 2 r8 with
              | some (oh, ':' :: r9) =>
                match getDigits 2 r9 with
                | some (om, []) =>
                  if oh ≤ 23 ∧ om ≤ 59 then some (tod, some (Int.ofNat (oh * 60 + om)))
                  else none
                | _ => none
              | _ => none
            | '-' :: r8 =>
              match getDigits 2 r8 with
              | some (oh, ':' :: r9) =>
                match getDigits 2 r9 with
                | some (om, []) =>
                  if oh ≤ 23 ∧ om ≤ 59 then some (tod, some (-(Int.ofNat (oh * 60 + om))))
                  else none
                | _ => none
              | _ => none
            | _ => none
          else none
    | _ => none

/-- ECMAScript Date Time String Format parse of a string to an epoch
millisecond value; `tzMin` is the host timezone offset in minutes east of
UTC, applied to date-time forms without an explicit offset. -/
def jsDateParse (tzMin : Int) (s : String) : Option Int :=
  let l := s.toList
  match getDigits 4 l with
  | none => none
  | some (y, r1) =>
    let ymd : Option (Nat × Nat × List Char) :=
      match r1 with
      | '-' :: r2 =>
        match getDigits 2 r2 with
        | none => none
        | some (m, r3) =>
          match r3 with
          | '-' :: r4 =>
            match getDigits 2 r4 with
            | none => none
            | some (d, r5) => some (m, d, r5)
          | _ => some (m, 1, r3)
      | _ => some (1, 1, r1)
    match ymd with
    | none => none
    | some (m, d, rest) =>
      if 1 ≤ m ∧ m ≤ 12 ∧ 1 ≤ d ∧ d ≤ daysInMonth (Int.ofNat y) m then
        let base := daysFromCivil (Int.ofNat y) m d * 86400000
        match rest with
        | [] => some base
        | 'T' :: r6 =>
          match readTimeTail r6 with
          | none => none
          | some (tod, offset) =>
            match offset with
            | some off => some (base + Int.ofNat tod - off * 60000)
            | none => some (base + Int.ofNat tod - tzMin * 60000)
        | _ => none
      else none

/-- Render the year of an ISO string: `YYYY` for 0..9999, the expanded
`±YYYYYY` form outside that range (as `Date.prototype.toISOString` does). -/
def renderYear (y : Int) : List Char :=
  if 0 ≤ y ∧ y ≤ 9999 then padZeros 4 (natChars y.toNat)
  else if y < 0 then '-' :: padZeros 6 (natChars (-y).toNat)
  else '+' :: padZeros 6 (natChars y.toNat)

/-- Date part of `Date.prototype.toISOString`: `YYYY-MM-DD` of the UTC
calendar date of the given day count. -/
def renderCivil (ymd : Int × Nat × Nat) : List Char :=
  renderYear ymd.1 ++ ['-'] ++ pad2 ymd.2.1 ++ ['-'] ++ pad2 ymd.2.2

/-- Embedding of `Date.prototype.toISOString` for an epoch millisecond
value: `YYYY-MM-DDTHH:mm:ss.sssZ` with all fields in UTC. -/
def toISOChars (ms : Int) : List Char :=
  let day := Int.fdiv ms 86400000
  let tod := (Int.emod ms 86400000).toNat
  renderCivil (civilFromDays day) ++ ['T'] ++
    pad2 (tod / 3600000) ++ [':'] ++ pad2 (tod / 60000 % 60) ++ [':'] ++
    pad2 (tod / 1000 % 60) ++ ['.'] ++ pad3 (tod % 1000) ++ ['Z']

/-- JavaScript falsiness of the formatter inputs (the `if (!d)` guard). -/
def jsFalsy : JSVal → Bool
  | .null => true
  | .undefined => true
  | .str s => s.isEmpty
  | .num .nan => true
  | .num (.finite n _) => n = 0
  | .num _ => false
  | .bool b => !b

/-- Time value of `new Date(d)` for the values `formatDate` can receive:
strings via the Date Time String Format, numbers as (truncated) epoch
milliseconds clipped to ±8.64e15, booleans and null via their numeric value;
`none` is an Invalid Date (`getTime()` is NaN). -/
def jsNewDate (tzMin : Int) : JSVal → Option Int
  | .str s => jsDateParse tzMin s
  | .num (.finite n d) =>
    let ms := n / Int.ofNat d
    if ms.natAbs ≤ 8640000000000000 then some ms else none
  | .num _ => none
  | .bool true => some 1
  | .bool false => some 0
  | .null => some 0
  | .undefined => none

/-- Embedding of `formatDate` (src/index.ts lines 95-105): falsy input maps
to ""; an invalid date maps to "" (the `isNaN(date.getTime())` guard);
otherwise the prefix of `toISOString()` before the first `'T'` — the UTC
calendar date (`split("T")[0]`).  The source's surrounding `try/catch` is
unreachable for the modelled inputs (the `Date` constructor does not throw). -/
def formatDate (tzMin : Int) (v : JSVal) : String :=
  if jsFalsy v then ""
  else
    match jsNewDate tzMin v with
    | none => ""
    | some ms => String.mk ((toISOChars ms).takeWhile (· ≠ 'T'))

/-! ### authenticate (src/index.ts lines 48-76) and the export handler

The JWT library call `jwt.verify(token, secret)` is an external collaborator
and is passed in as a function returning the decoded payload, or `none` when
verification throws (bad signature, expiry, malformed token).  The Supabase
client is embedded as an optional in-memory table of receipt rows; the
handler's single query `.eq("id", receiptId).eq("user_id", userId).maybeSingle()`
becomes a filter by both columns, with `maybeSingle` erroring when more than
one row matches. -/

/-- Decoded JWT payload: only the `sub` claim is read; absent claims are
`none`, present claims can be any JavaScript value (the source checks
`typeof sub === "string"` and truthiness). -/
structure JwtPayload where
  sub : Option JSVal
deriving DecidableEq, Repr

/-- Caller-visible HTTP response of the export endpoint. -/
inductive Resp where
  | err (status : Nat) (error : String) : Resp
  | csvFile (contentType : String) (disposition : String) (body : String) : Resp
deriving DecidableEq, Repr

/-- Embedding of `authenticate` (src/index.ts lines 48-76): missing header or
missing `"Bearer "` prefix responds 401; an absent or empty signing secret
responds 500; a failed verification responds 401; a payload whose `sub` claim
is missing, falsy, or not a string responds 401; otherwise the subject is
returned. -/
def authenticate (verify : String → String → Option JwtPayload)
    (jwtSecret : Option String) (authHeader : Option String) : Except Resp String :=
  match authHeader with
  | none => .error (.err 401 ("Missing Authorization Bearer token"))
  | some auth =>
    if !matchesAt (("Bearer ").toList) false auth.toList then
      .error (.err 401 ("Missing Authorization Bearer token"))
    else
      let token := String.mk (jsTrimL (auth.toList.drop 7))
      match jwtSecret with
      | none => .error (.err 500 ("Server missing SUPABASE_JWT_SECRET env variable"))
      | some sec =>
        if sec = "" then .error (.err 500 ("Server missing SUPABASE_JWT_SECRET env variable"))
        else
          match verify token sec with
          | none => .error (.err 401 ("Invalid or expired token"))
          | some decoded =>
            match decoded.sub with
            | some (.str u) =>
              if u = "" then .error (.err 401 ("Invalid token: sub claim missing"))
              else .ok u
            | _ => .error (.err 401 ("Invalid token: sub claim missing"))

/-- Line item as selected by the export query (`receipt_items(name, quantity,
price)`); columns are untyped database values. -/
structure LineItem where
  name : JSVal
  quantity : JSVal
  price : JSVal
deriving DecidableEq, Repr

/-- Receipt row of the external store.  `id` and `user_id` are the two
columns the query filters on; the remaining columns are the selected data. -/
structure ReceiptRow where
  id : String
  user_id : String
  merchant : JSVal
  purchase_at : JSVal
  total : JSVal
  currency : JSVal
  category : JSVal
  receipt_items : List LineItem
deriving DecidableEq, Repr

/-- Result of the store query: a database error, or at most one row. -/
inductive StoreResult where
  | storeError : StoreResult
  | found : Option ReceiptRow → StoreResult
deriving DecidableEq, Repr

/-- The handler's single query (src/index.ts lines 128-135): select rows
matching the record identifier AND the owner identifier, with `maybeSingle`
(zero rows is `none`, one row is that row, several rows is an error). -/
def queryReceipt (db : List ReceiptRow) (receiptId userId : String) : StoreResult :=
  match db.filter (fun r => r.id = receiptId ∧ r.user_id = userId) with
  | [] => .found none
  | [r] => .found (some r)
  | _ => .storeError

/-- Character class `[0-9a-fA-F-]` of the identifier regex. -/
def hexDashChar (c : Char) : Bool :=
  c.isDigit || ('a' ≤ c && c ≤ 'f') || ('A' ≤ c && c ≤ 'F') || c = '-'

/-- Identifier-shape gate of the handler: the regex
`/^[0-9a-fA-F-]{32,36}$/` (hex digits and hyphens, length 32 to 36); the
separate `!receiptId` falsiness test is subsumed by the length bound. -/
def validIdFormat (s : String) : Bool :=
  32 ≤ s.length && s.length ≤ 36 && s.toList.all hexDashChar

/-- One item row of the CSV:
`${csvEscape(item.name)},${csvEscape(item.quantity ?? "")},${csvEscape(formatNumber(item.price))}`. -/
def itemLine (it : LineItem) : String :=
  csvEscape it.name ++ "," ++
  csvEscape (match it.quantity with | .null => .str ("") | .undefined => .str ("") | v => v) ++
  "," ++ csvEscape (.str (formatNumber it.price))

/-- CSV-building block of the export handler (src/index.ts lines 150-167),
written as the source builds it: successive pushes of the six metadata
lines, a blank line, the two item-table header lines, then one push per line
item in store order, joined with a single newline.  (An Array `push` is a
list append of a singleton.) -/
def buildReceiptCsv (tzMin : Int) (data : ReceiptRow) : String :=
  let lines : List String := []
  let lines := lines ++ [("Merchant,") ++ csvEscape data.merchant]
  let lines := lines ++ [("Purchase Date,") ++ csvEscape (.str (formatDate tzMin data.purchase_at))]
  let lines := lines ++ [("Total,") ++ csvEscape (.str (formatNumber data.total))]
  let lines := lines ++ [("Currency,") ++ csvEscape data.currency]
  let lines := lines ++ [("Category,") ++ csvEscape data.category]
  let lines := lines ++ [("Receipt ID,") ++ csvEscape (.str data.id)]
  let lines := lines ++ [""]
  let lines := lines ++ [("Items")]
  let lines := lines ++ [("Name,Quantity,Price")]
  let lines := data.receipt_items.foldl (fun ls it => ls ++ [itemLine it]) lines
  String.intercalate ("\n") lines

/-- Export request: the (already lowercased) Authorization header and the
`:id` path parameter. -/
structure ExportReq where
  authHeader : Option String
  pathId : String
deriving DecidableEq, Repr

/-- Embedding of the `GET /receipts/:id/export/csv` handler (src/index.ts
lines 112-175): authenticate, validate the id shape, require the store
client, run the single ownership-filtered query, then 500 on store error,
404 on zero rows, and otherwise the CSV download response. -/
def exportHandler (verify : String → String → Option JwtPayload)
    (jwtSecret : Option String) (tzMin : Int)
    (supabase : Option (List ReceiptRow)) (req : ExportReq) : Resp :=
  match authenticate verify jwtSecret req.authHeader with
  | .error r => r
  | .ok userId =>
    if !validIdFormat req.pathId then .err 400 ("Invalid receipt id format")
    else
      match supabase with
      | none => .err 500 ("Supabase client not initialized on server")
      | some db =>
        match queryReceipt db req.pathId userId with
        | .storeError => .err 500 ("Database query failed")
        | .found none => .err 404 ("Receipt not found")
        | .found (some data) =>
          .csvFile ("text/csv; charset=utf-8")
            (("attachment; filename=receipt_") ++ req.pathId ++ (".csv"))
            (buildReceiptCsv tzMin data)

/-! ### Specification-side CSV layout (spec §6)

The nine fixed lines followed by one row per item, as the spec's document
layout table describes them. -/

/-- The lines of the export document as §6 lays them out. -/
def specCsvLines (tzMin : Int) (r : ReceiptRow) : List String :=
  [("Merchant,") ++ csvEscape r.merchant,
   ("Purchase Date,") ++ csvEscape (.str (formatDate tzMin r.purchase_at)),
   ("Total,") ++ csvEscape (.str (formatNumber r.total)),
   ("Currency,") ++ csvEscape r.currency,
   ("Category,") ++ csvEscape r.category,
   ("Receipt ID,") ++ csvEscape (.str r.id),
   "", ("Items"), ("Name,Quantity,Price")] ++ r.receipt_items.map itemLine

/-! ### Further specification-side notions used by the claims -/

/-- Standard CSV unquoting of the remainder of a quoted field (after the
opening quote): doubled quotes decode to a quote, the closing quote must end
the field. -/
def unquoteCsv : List Char → Option (List Char)
  | [] => none
  | c :: r =>
    if c = '"' then
      match r with
      | [] => some []
      | c2 :: r2 => if c2 = '"' then (unquoteCsv r2).map ('"' :: ·) else none
    else (unquoteCsv r).map (c :: ·)

/-- Parse a text as a single CSV field under standard CSV quoting: either a
quoted field, or an unquoted field containing no quote, comma or newline. -/
def parseCsvField (s : String) : Option String :=
  match s.toList with
  | [] => some ("")
  | c :: r =>
    if c = '"' then (unquoteCsv r).map String.mk
    else if (c :: r).any csvSpecial then none else some (String.mk (c :: r))

/-- Does the string have exactly two digits after the decimal point: its
third-from-last character is the only `'.'` and the last two characters are
digits? -/
def twoDecimalStr (s : String) : Bool :=
  match s.toList.reverse with
  | c :: b :: p :: rest => b.isDigit && c.isDigit && p = '.' && rest.all (· ≠ '.')
  | _ => false

/-- Does the request carry a `"Bearer "`-prefixed Authorization header? -/
def hasBearer : Option String → Bool
  | none => false
  | some a => matchesAt (("Bearer ").toList) false a.toList

/-- UTC calendar date (rendered as by `toISOString`) of an epoch millisecond
value — the spec's "calendar date `YYYY-MM-DD` in UTC, discarding
time-of-day". -/
def utcDateChars (ms : Int) : List Char :=
  renderCivil (civilFromDays (Int.fdiv ms 86400000))

/-- Exact rational value of the IEEE-754 double denoted by the literal
`12.345` (the closest double to 12.345): `6949617174986097 * 2^-49`. -/
def double12345 : JSNum := .finite 6949617174986097 562949953421312

/-- Is the number NaN or a finite value of magnitude below `10^21` (the
regime in which `toFixed(2)` renders fixed-point notation)? -/
def modestNumber : JSNum → Bool
  | .nan => true
  | .finite n d => n.natAbs < 10 ^ 21 * d
  | _ => false

/-! ## Helper lemmas -/

theorem stringMk_toList (s : String) : String.mk s.toList = s := by
  obtain ⟨l⟩ := s
  rfl

theorem digitChar_isDigit (m : Nat) : (digitChar m).isDigit = true := by
  unfold digitChar
  split <;> decide

theorem mem_natCharsAux_isDigit {fuel n : Nat} {c : Char}
    (h : c ∈ natCharsAux fuel n) : c.isDigit = true := by
  induction fuel generalizing n with
  | zero => simp [natCharsAux] at h
  | succ f ih =>
    unfold natCharsAux at h
    split at h
    · simp only [List.mem_singleton] at h
      subst h
      exact digitChar_isDigit _
    · rcases List.mem_append.mp h with h | h
      · exact ih h
      · simp only [List.mem_singleton] at h
        subst h
        exact digitChar_isDigit _

theorem mem_natChars_isDigit {n : Nat} {c : Char}
    (h : c ∈ natChars n) : c.isDigit = true :=
  mem_natCharsAux_isDigit h

theorem natChars_lt_ten {n : Nat} (h : n < 10) : natChars n = [digitChar n] := by
  unfold natChars natCharsAux
  simp [h]

theorem natChars_two_digits {n : Nat} (h1 : 10 ≤ n) (h2 : n < 100) :
    natChars n = [digitChar (n / 10), digitChar (n % 10)] := by
  obtain ⟨k, hk⟩ : ∃ k, n = k + 10 := ⟨n - 10, by omega⟩
  subst hk
  unfold natChars natCharsAux
  have hn : ¬k + 10 < 10 := by omega
  simp only [hn, if_false]
  unfold natCharsAux
  have hd : k / 10 + 1 < 10 := by omega
  simp [Nat.add_div_right, Nat.add_mod_right, hd]

theorem pad2_shape (n : Nat) (h : n < 100) :
    ∃ b c, pad2 n = [b, c] ∧ b.isDigit = true ∧ c.isDigit = true := by
  unfold pad2
  by_cases hn : n < 10
  · exact ⟨'0', digitChar n, by simp [hn, natChars_lt_ten hn], by decide, digitChar_isDigit n⟩
  · refine ⟨digitChar (n / 10), digitChar (n % 10), ?_, digitChar_isDigit _, digitChar_isDigit _⟩
    simp [hn, natChars_two_digits (by omega) h]

theorem mem_pad2_isDigit {n : Nat} {c : Char} (h : c ∈ pad2 n) : c.isDigit = true := by
  unfold pad2 at h
  split at h
  · rcases List.mem_cons.mp h with h | h
    · subst h; decide
    · exact mem_natChars_isDigit h
  · exact mem_natChars_isDigit h

theorem mem_padZeros {w : Nat} {l : List Char} {c : Char} (h : c ∈ padZeros w l) :
    c = '0' ∨ c ∈ l := by
  unfold padZeros at h
  rcases List.mem_append.mp h with h | h
  · exact Or.inl (List.eq_of_mem_replicate h)
  · exact Or.inr h

theorem mem_renderYear {y : Int} {c : Char} (h : c ∈ renderYear y) :
    c.isDigit = true ∨ c = '-' ∨ c = '+' := by
  unfold renderYear at h
  split at h
  · rcases mem_padZeros h with h | h
    · subst h; exact Or.inl (by decide)
    · exact Or.inl (mem_natChars_isDigit h)
  · split at h
    · rcases List.mem_cons.mp h with h | h
      · exact Or.inr (Or.inl h)
      · rcases mem_padZeros h with h | h
        · subst h; exact Or.inl (by decide)
        · exact Or.inl (mem_natChars_isDigit h)
    · rcases List.mem_cons.mp h with h | h
      · exact Or.inr (Or.inr h)
      · rcases mem_padZeros h with h | h
        · subst h; exact Or.inl (by decide)
        · exact Or.inl (mem_natChars_isDigit h)

theorem mem_renderCivil_ne_T {x : Int × Nat × Nat} {c : Char}
    (h : c ∈ renderCivil x) : c ≠ 'T' := by
  unfold renderCivil at h
  rcases List.mem_append.mp h with h | h
  · rcases List.mem_append.mp h with h | h
    · rcases List.mem_append.mp h with h | h
      · rcases List.mem_append.mp h with h | h
        · rcases mem_renderYear h with h | h | h
          · intro hc; subst hc; simp at h
          · intro hc; subst hc; simp at h
          · intro hc; subst hc; simp at h
        · simp at h; subst h; decide
      · intro hc; subst hc; exact absurd (mem_pad2_isDigit h) (by decide)
    · simp at h; subst h; decide
  · intro hc; subst hc; exact absurd (mem_pad2_isDigit h) (by decide)

theorem takeWhile_append_T {A B : List Char} (h : ∀ c ∈ A, c ≠ 'T') :
    (A ++ 'T' :: B).takeWhile (· ≠ 'T') = A := by
  induction A with
  | nil => simp [List.takeWhile_cons]
  | cons a r ih =>
    have ha : a ≠ 'T' := h a (by simp)
    have ih2 := ih (fun c hc => h c (by simp [hc]))
    simp [List.takeWhile_cons, ha]
    simpa using ih2

theorem toISOChars_takeWhile (ms : Int) :
    (toISOChars ms).takeWhile (· ≠ 'T') = utcDateChars ms := by
  unfold toISOChars utcDateChars
  simp only [List.append_assoc, List.singleton_append]
  exact takeWhile_append_T (fun c hc => mem_renderCivil_ne_T hc)

theorem unquoteCsv_doubleQuotes (l : List Char) :
    unquoteCsv (doubleQuotes l ++ ['"']) = some l := by
  induction l with
  | nil => simp [doubleQuotes, unquoteCsv]
  | cons c r ih =>
    by_cases hc : c = '"'
    · subst hc
      simp [doubleQuotes, unquoteCsv, ih]
    · simp only [doubleQuotes, hc, if_false, List.cons_append]
      unfold unquoteCsv
      simp [hc, ih]

theorem foldl_snoc (f : LineItem → String) (its : List LineItem) :
    ∀ init : List String,
      its.foldl (fun ls it => ls ++ [f it]) init = init ++ its.map f := by
  induction its with
  | nil => intro init; simp
  | cons a r ih => intro init; simp [ih, List.append_assoc]

theorem twoDecimalStr_of (pre : List Char) (b c : Char)
    (hpre : ∀ x ∈ pre, x ≠ '.') (hb : b.isDigit = true) (hc : c.isDigit = true) :
    twoDecimalStr (String.mk (pre ++ '.' :: [b, c])) = true := by
  unfold twoDecimalStr
  have h1 : (String.mk (pre ++ '.' :: [b, c])).toList.reverse =
      c :: b :: '.' :: pre.reverse := by
    show (pre ++ '.' :: [b, c]).reverse = _
    simp
  rw [h1]
  simp [hb, hc, List.all_eq_true]
  intro x hx
  simpa using hpre x hx

/-! ## Claim theorems -/

/-- C4: formatNumber maps null to "", the string "12" to "12.00", the
unparseable string "abc" to "", and the number 12.345 — i.e. the IEEE-754
double closest to 12.345, whose exact value the last two conjuncts pin to
within half an ulp — to "12.35". -/
theorem claim4_formatNumber_examples :
    formatNumber .null = "" ∧
    formatNumber (.str ("12")) = "12.00" ∧
    formatNumber (.str ("abc")) = "" ∧
    formatNumber (.num double12345) = "12.35" ∧
    (12345 / 1000 - 1 / 2 ^ 50 : ℚ) < 6949617174986097 / 562949953421312 ∧
    (6949617174986097 / 562949953421312 : ℚ) < 12345 / 1000 + 1 / 2 ^ 50 :=
  ⟨by decide, by decide, by decide, by decide, by norm_num, by norm_num⟩

/-- C5 counterexample: the claim "for every input the output of the monetary
formatter is either empty or has exactly two digits after the decimal point,
including non-finite values" fails at Infinity, where `formatNumber` returns
"Infinity". -/
theorem claim5_counterexample :
    formatNumber (.num .inf) = "Infinity" ∧
    ¬(formatNumber (.num .inf) = "" ∨ twoDecimalStr (formatNumber (.num .inf)) = true) := by
  decide

/-- C5 (amended): for every input whose numeric conversion is NaN or a
finite number of magnitude below 10^21, the output of `formatNumber` is
either the empty string or a string with exactly two digits after the
decimal point.  (Non-finite conversions render "Infinity"/"-Infinity", and
magnitudes at or above 10^21 fall back to `Number::toString`; the amendment
excludes exactly those.) -/
theorem claim5_amended_two_decimals :
    ∀ v : JSVal, modestNumber (jsToNumber v) = true →
      formatNumber v = "" ∨ twoDecimalStr (formatNumber v) = true := by
  intro v h
  unfold formatNumber
  by_cases h0 : v = .null ∨ v = .undefined ∨ v = .str ("")
  · simp [h0]
  · simp only [h0, if_false]
    rcases hn : jsToNumber v with _ | _ | _ | ⟨n, d⟩
    · simp
    · rw [hn] at h; simp [modestNumber] at h
    · rw [hn] at h; simp [modestNumber] at h
    · rw [hn] at h
      have hd : n.natAbs < 10 ^ 21 * d := by simpa [modestNumber] using h
      right
      unfold jsToFixed2
      have hge : ¬(n.natAbs ≥ 10 ^ 21 * d) := by omega
      simp only [ge_iff_le, hge, if_false]
      obtain ⟨b, c2, hbc, hb, hc2⟩ :=
        pad2_shape (centsHalfUp n.natAbs d % 100) (Nat.mod_lt _ (by norm_num))
      rw [hbc]
      have hassoc :
          (if n < 0 then ['-'] else []) ++ natChars (centsHalfUp n.natAbs d / 100) ++
              ['.'] ++ [b, c2] =
            ((if n < 0 then ['-'] else []) ++ natChars (centsHalfUp n.natAbs d / 100)) ++
              '.' :: [b, c2] := by
        simp
      rw [hassoc]
      apply twoDecimalStr_of _ _ _ _ hb hc2
      intro x hx
      rcases List.mem_append.mp hx with hx | hx
      · rcases (by split at hx <;> simp_all : x = '-') with rfl
        decide
      · have hdig := mem_natChars_isDigit hx
        intro hcon
        subst hcon
        simp at hdig

/-- C5 witness: a finite value below the fixed-point threshold satisfies the
amended claim's hypothesis, and its formatting has the two-decimal shape. -/
theorem claim5_witness :
    modestNumber (jsToNumber (.num (.finite 125 10))) = true ∧
    (formatNumber (.num (.finite 125 10)) = "" ∨
      twoDecimalStr (formatNumber (.num (.finite 125 10))) = true) :=
  ⟨by decide, claim5_amended_two_decimals (.num (.finite 125 10)) (by decide)⟩

/-- C7: csvEscape round-trips through standard CSV field parsing for every
string (including commas, quotes and newlines); it maps null and undefined
to the empty string; and it wraps in doubled-quote form exactly when the
string contains a double quote, comma or newline, leaving the string
unchanged otherwise. -/
theorem claim7_csvEscape_roundtrip :
    (∀ s : String, parseCsvField (csvEscape (.str s)) = some s) ∧
    csvEscape .null = "" ∧ csvEscape .undefined = "" ∧
    (∀ s : String, csvEscape (.str s) =
        if s.toList.any csvSpecial then String.mk ('"' :: doubleQuotes s.toList ++ ['"'])
        else s) := by
  have hesc : ∀ s : String, csvEscape (.str s) =
      if s.toList.any csvSpecial then String.mk ('"' :: doubleQuotes s.toList ++ ['"'])
      else s := by
    intro s
    by_cases h : s.toList.any csvSpecial
    · simp [csvEscape, jsStringOf, h]
    · simp [csvEscape, jsStringOf, h, stringMk_toList]
  refine ⟨?_, rfl, rfl, hesc⟩
  intro s
  rw [hesc s]
  by_cases h : s.toList.any csvSpecial
  · simp only [h, if_true]
    show parseCsvField (String.mk ('"' :: (doubleQuotes s.toList ++ ['"']))) = some s
    unfold parseCsvField
    simp [unquoteCsv_doubleQuotes, stringMk_toList]
  · simp only [h, Bool.false_eq_true, if_false]
    unfold parseCsvField
    rcases hl : s.toList with _ | ⟨c, r⟩
    · have : s = "" := by
        have := congrArg String.mk hl
        rwa [stringMk_toList] at this
      simp [this]
    · have hq : c ≠ '"' := by
        intro hcq
        subst hcq
        exact h (by rw [hl]; simp [csvSpecial])
      have hany : (c :: r).any csvSpecial = false := by
        rw [← hl]
        exact Bool.not_eq_true _ |>.mp h
      simp only [hq, if_false, hany, Bool.false_eq_true]
      rw [← hl, stringMk_toList]

/-- C9: buildReceiptCsv joins its lines with a single newline and emits, in
order, the six metadata lines, a blank line, the "Items" line, the
"Name,Quantity,Price" header and one row per line item in store order; with
zero line items the two header lines are still emitted with no data rows
following.  (The builder is a total function: formatter failures degrade to
empty cells and cannot abort the document.) -/
theorem claim9_buildReceiptCsv_layout :
    (∀ (tz : Int) (r : ReceiptRow),
        buildReceiptCsv tz r = String.intercalate ("\n") (specCsvLines tz r)) ∧
    (∀ (tz : Int) (id uid : String) (m pa tot cur cat : JSVal),
        buildReceiptCsv tz ⟨id, uid, m, pa, tot, cur, cat, []⟩ =
          String.intercalate ("\n")
            [("Merchant,") ++ csvEscape m,
             ("Purchase Date,") ++ csvEscape (.str (formatDate tz pa)),
             ("Total,") ++ csvEscape (.str (formatNumber tot)),
             ("Currency,") ++ csvEscape cur,
             ("Category,") ++ csvEscape cat,
             ("Receipt ID,") ++ csvEscape (.str id),
             "", ("Items"), ("Name,Quantity,Price")]) := by
  have hmain : ∀ (tz : Int) (r : ReceiptRow),
      buildReceiptCsv tz r = String.intercalate ("\n") (specCsvLines tz r) := by
    intro tz r
    simp only [buildReceiptCsv, specCsvLines]
    rw [foldl_snoc]
    simp
  exact ⟨hmain, fun tz id uid m pa tot cur cat => by rw [hmain]; simp [specCsvLines]⟩

/-- C2 counterexample: the claimed priority order — rule 1 "fenced block
labeled json → its trimmed inner content", rule 2 "any fenced block → its
trimmed inner content", first match wins — is false of the code on
empty-capture fences.  On "```json\n```" the claim's rule 1 yields the
trimmed inner content "" but extractJson returns "json" (the labeled fence
is discarded as falsy and the unlabeled regex captures the label); on
"``` ```" the claim's rule 2 yields "" but extractJson returns null. -/
theorem claim2_counterexample :
    specFenceJson (("```json\n```").toList) = some [] ∧
    extractJson ("```json\n```") = some ("json") ∧
    extractJson ("```json\n```") ≠
      (((specFenceJson (("```json\n```").toList)).orElse fun _ =>
            specFenceAny (("```json\n```").toList)).orElse fun _ =>
          specBraceSlice (("```json\n```").toList)).map String.mk ∧
    specFenceAny (("``` ```").toList) = some [] ∧
    extractJson ("``` ```") = none ∧
    extractJson ("``` ```") ≠
      (((specFenceJson (("``` ```").toList)).orElse fun _ =>
            specFenceAny (("``` ```").toList)).orElse fun _ =>
          specBraceSlice (("``` ```").toList)).map String.mk := by
  decide

/-- C2 (amended): extractJson applies the priority order with the first
match winning, where each fence rule carries the code's truthiness
condition — a fenced block (labeled or not) only wins when its captured
body is non-empty, and an empty-capture fence falls through to the next
rule; then the first-`{`-to-last-`}` slice, then null.  In particular a
brace-delimited substring embedded in prose is returned by the slice rule,
an input with no fence and no brace pair yields null, and the empty-capture
inputs of the counterexample follow the amended order. -/
theorem claim2_amended_priority :
    (∀ s : String, extractJson s =
        (((fenceJsonTruthy s.toList).orElse fun _ => fenceAnyTruthy s.toList).orElse fun _ =>
            specBraceSlice s.toList).map String.mk) ∧
    extractJson ("```json\n\x7b\"a\":1\x7d\n```") = some ("\x7b\"a\":1\x7d") ∧
    extractJson ("Here you go: \x7b\"a\":1\x7d thanks") = some ("\x7b\"a\":1\x7d") ∧
    extractJson ("no json here at all") = none ∧
    extractJson ("```json\n```") = some ("json") ∧
    extractJson ("``` ```") = none := by
  refine ⟨?_, by decide, by decide, by decide, by decide, by decide⟩
  intro s
  simp only [extractJson, fenceJsonTruthy, fenceAnyTruthy, specBraceSlice]
  by_cases he : s.toList.isEmpty = true
  · have hl : s.toList = [] := by simpa using he
    rw [hl]
    simp [execFence, firstIdx, lastIdx, Option.orElse]
  · simp only [he, Bool.false_eq_true, if_false]
    rcases h1 : execFence tickJson true s.toList with _ | g <;>
      rcases h2 : execFence tick3 false s.toList with _ | g2 <;>
      rcases h3 : firstIdx (· = lbrace) s.toList with _ | f <;>
      rcases h4 : lastIdx (· = rbrace) s.toList with _ | la
    all_goals try by_cases hg : g.isEmpty = true
    all_goals try by_cases hg2 : g2.isEmpty = true
    all_goals try by_cases h5 : f < la
    all_goals simp_all [Option.orElse]

/-- C3 counterexample: extraction failure and candidate-parse failure are
distinguishable in the response shape — the former yields the 502
model-format response carrying the raw text, the latter falls into the
generic 500 catch — refuting the claim that they produce the same kind of
failure response. -/
theorem claim3_counterexample :
    extractJson ("the model shrugged") = none ∧
    analyzeRespond ("the model shrugged") = .modelFormatError ("the model shrugged") ∧
    extractJson ("answer: \x7ba:1\x7d ok") = some ("\x7ba:1\x7d") ∧
    jsonParseOk ("\x7ba:1\x7d") = false ∧
    analyzeRespond ("answer: \x7ba:1\x7d ok") = .analysisFailed ∧
    analyzeStatus (analyzeRespond ("the model shrugged")) ≠
      analyzeStatus (analyzeRespond ("answer: \x7ba:1\x7d ok")) := by
  decide

/-- C3 (amended): for every model response text, extraction failure produces
the distinct 502 response carrying the raw text, while a candidate that
JSON-parsing rejects produces the generic 500 failure response shared with
provider-call failures; the two failure kinds differ in the response shape. -/
theorem claim3_amended_distinct_failures :
    (∀ text : String, extractJson text = none →
        analyzeRespond text = .modelFormatError text ∧
        analyzeStatus (analyzeRespond text) = 502) ∧
    (∀ text c : String, extractJson text = some c → jsonParseOk c = false →
        analyzeRespond text = .analysisFailed ∧
        analyzeStatus (analyzeRespond text) = 500) := by
  constructor
  · intro t h
    simp [analyzeRespond, h, analyzeStatus]
  · intro t c h hp
    simp [analyzeRespond, h, hp, analyzeStatus]

/-- C3 witness: the amended claim applied to a text with no JSON-like
content (502) and a text whose brace slice fails to parse (500). -/
theorem claim3_witness :
    analyzeRespond ("nothing structured here") =
      .modelFormatError ("nothing structured here") ∧
    analyzeRespond ("see: \x7bbad json\x7d !") = .analysisFailed :=
  ⟨(claim3_amended_distinct_failures.1 ("nothing structured here") (by decide)).1,
   (claim3_amended_distinct_failures.2 ("see: \x7bbad json\x7d !") ("\x7bbad json\x7d")
      (by decide) (by decide)).1⟩

/-- Requests without a `"Bearer "`-prefixed Authorization header fail the
very first gate of `authenticate`, for every verifier and every secret
(including an unconfigured one). -/
theorem authenticate_no_bearer (verify : String → String → Option JwtPayload)
    (sec : Option String) (h : Option String) (hb : hasBearer h = false) :
    authenticate verify sec h = .error (.err 401 ("Missing Authorization Bearer token")) := by
  cases h with
  | none => rfl
  | some a =>
    have hb2 : matchesAt (("Bearer ").toList) false a.toList = false := by
      simpa [hasBearer] using hb
    simp only [authenticate]
    rw [hb2]
    rfl

/-- C6: formatDate maps null, the empty string, and any unparseable input
to ""; for every parseable date-time input it returns the UTC calendar date
of the parsed instant with the time-of-day discarded; in particular
formatDate("2024-03-05T10:00:00Z") = "2024-03-05" and
formatDate("not-a-date") = "".  (The host timezone offset, which affects
offset-less date-time forms, is universally quantified.) -/
theorem claim6_formatDate :
    (∀ tz : Int, formatDate tz .null = "") ∧
    (∀ tz : Int, formatDate tz (.str ("")) = "") ∧
    (∀ tz : Int, formatDate tz (.str ("not-a-date")) = "") ∧
    (∀ tz : Int, formatDate tz (.str ("2024-03-05T10:00:00Z")) = "2024-03-05") ∧
    (∀ (tz : Int) (s : String), jsDateParse tz s = none → formatDate tz (.str s) = "") ∧
    (∀ (tz : Int) (s : String) (ms : Int), jsDateParse tz s = some ms →
        formatDate tz (.str s) = String.mk (utcDateChars ms)) := by
  refine ⟨fun tz => rfl, fun tz => rfl, fun tz => rfl, fun tz => rfl, ?_, ?_⟩
  · intro tz s h
    unfold formatDate
    by_cases hf : jsFalsy (.str s) = true
    · simp [hf]
    · simp [hf, jsNewDate, h]
  · intro tz s ms h
    have hne : s ≠ "" := by
      intro he
      subst he
      rw [show jsDateParse tz ("") = none from rfl] at h
      cases h
    have hf : jsFalsy (.str s) = false := by
      simp only [jsFalsy]
      rw [← Bool.not_eq_true]
      intro he
      exact hne ((String.isEmpty_iff s).mp he)
    unfold formatDate
    simp only [hf, Bool.false_eq_true, if_false]
    rw [show jsNewDate tz (.str s) = some ms from h]
    show String.mk ((toISOChars ms).takeWhile (· ≠ 'T')) = String.mk (utcDateChars ms)
    rw [toISOChars_takeWhile]

/-- C6 witness: the universal conjuncts applied to the parseable input
`2024-03-05T10:00:00Z` (epoch 1709632800000) and the unparseable `xyz`. -/
theorem claim6_witness :
    jsDateParse 0 ("2024-03-05T10:00:00Z") = some 1709632800000 ∧
    formatDate 0 (.str ("2024-03-05T10:00:00Z")) = String.mk (utcDateChars 1709632800000) ∧
    formatDate 0 (.str ("xyz")) = "" :=
  ⟨by decide,
   claim6_formatDate.2.2.2.2.2 0 ("2024-03-05T10:00:00Z") 1709632800000 (by decide),
   claim6_formatDate.2.2.2.2.1 0 ("xyz") (by decide)⟩

/-- C8: the export endpoint never accesses the store before both gates pass:
a request without a Bearer-prefixed credential is answered 401, and an
authenticated request whose path id has length outside 32–36 or a character
outside hex digits and hyphens is answered 400, in both cases with a
response that does not depend on the store contents (nor on whether a store
client exists at all) — the formal rendering of "without any store access". -/
theorem claim8_gates_before_store :
    (∀ (verify : String → String → Option JwtPayload) (sec : Option String) (tz : Int)
        (sup sup' : Option (List ReceiptRow)) (req : ExportReq),
        hasBearer req.authHeader = false →
        exportHandler verify sec tz sup req =
          .err 401 ("Missing Authorization Bearer token") ∧
        exportHandler verify sec tz sup req = exportHandler verify sec tz sup' req) ∧
    (∀ (verify : String → String → Option JwtPayload) (sec : Option String) (tz : Int)
        (sup sup' : Option (List ReceiptRow)) (req : ExportReq) (u : String),
        authenticate verify sec req.authHeader = .ok u →
        ¬(32 ≤ req.pathId.length ∧ req.pathId.length ≤ 36 ∧
            ∀ c ∈ req.pathId.toList, hexDashChar c = true) →
        exportHandler verify sec tz sup req = .err 400 ("Invalid receipt id format") ∧
        exportHandler verify sec tz sup req = exportHandler verify sec tz sup' req) := by
  constructor
  · intro verify sec tz sup sup' req hb
    unfold exportHandler
    rw [authenticate_no_bearer verify sec req.authHeader hb]
    exact ⟨rfl, rfl⟩
  · intro verify sec tz sup sup' req u hau hbad
    have hval : validIdFormat req.pathId = false := by
      rw [← Bool.not_eq_true]
      intro hv
      simp only [validIdFormat, Bool.and_eq_true, decide_eq_true_eq, List.all_eq_true] at hv
      exact hbad ⟨hv.1.1, hv.1.2, hv.2⟩
    unfold exportHandler
    rw [hau]
    simp [hval]

/-- C8 witness: the two gate conjuncts applied to a store-less and a
store-ful run: a header-less request is answered 401, and an authenticated
request with the short id "zz" is answered 400. -/
theorem claim8_witness :
    exportHandler (fun _ _ => none) none 0 none ⟨none, "x"⟩ =
      .err 401 ("Missing Authorization Bearer token") ∧
    exportHandler (fun t s => if t = "tok" ∧ s = "sec" then some ⟨some (.str ("u1"))⟩ else none)
        (some ("sec")) 0 (some []) ⟨some ("Bearer tok"), "zz"⟩ =
      .err 400 ("Invalid receipt id format") :=
  ⟨(claim8_gates_before_store.1 (fun _ _ => none) none 0 none (some []) ⟨none, "x"⟩
      (by decide)).1,
   (claim8_gates_before_store.2 (fun t s => if t = "tok" ∧ s = "sec" then some ⟨some (.str ("u1"))⟩ else none)
      (some ("sec")) 0 (some []) none ⟨some ("Bearer tok"), "zz"⟩ ("u1")
      rfl (by decide)).1⟩

/-- C10: the credential-presence check precedes the misconfiguration check:
a request without a Bearer-prefixed header is answered 401 whatever the
secret configuration (in particular when it is unconfigured), and the 500
ServerMisconfigured response is only ever observed by callers that supplied
a Bearer-prefixed header. -/
theorem claim10_auth_order :
    (∀ (verify : String → String → Option JwtPayload) (sec : Option String) (tz : Int)
        (sup : Option (List ReceiptRow)) (req : ExportReq),
        hasBearer req.authHeader = false →
        exportHandler verify sec tz sup req =
          .err 401 ("Missing Authorization Bearer token")) ∧
    (∀ (verify : String → String → Option JwtPayload) (sec : Option String) (tz : Int)
        (sup : Option (List ReceiptRow)) (req : ExportReq),
        exportHandler verify sec tz sup req =
          .err 500 ("Server missing SUPABASE_JWT_SECRET env variable") →
        hasBearer req.authHeader = true) := by
  constructor
  · intro verify sec tz sup req hb
    unfold exportHandler
    rw [authenticate_no_bearer verify sec req.authHeader hb]
  · intro verify sec tz sup req h
    by_cases hb : hasBearer req.authHeader = true
    · exact hb
    · exfalso
      rw [Bool.not_eq_true] at hb
      unfold exportHandler at h
      rw [authenticate_no_bearer verify sec req.authHeader hb] at h
      simp at h

/-- C10 witness: with an unconfigured secret, a `Basic` credential is
answered 401 (not 500); and a request that does observe the 500
misconfiguration response carried a Bearer-prefixed header. -/
theorem claim10_witness :
    exportHandler (fun _ _ => none) none 0 none ⟨some ("Basic abc"), "id"⟩ =
      .err 401 ("Missing Authorization Bearer token") ∧
    hasBearer (some ("Bearer x")) = true :=
  ⟨claim10_auth_order.1 (fun _ _ => none) none 0 none ⟨some ("Basic abc"), "id"⟩ (by decide),
   claim10_auth_order.2 (fun _ _ => none) none 0 none ⟨some ("Bearer x"), "id"⟩ (by decide)⟩

/-- C1: for every export request whose credential verifies to subject `u`
and every valid-shaped id such that no stored row carries that id with owner
`u` — in particular when rows with that id belong to other owners — the
endpoint answers 404, identically to a store holding no row with that id at
all; and the single store query is filtered by id AND owner: any row it
returns matches both. -/
theorem claim1_owner_mismatch_404 :
    ∀ (verify : String → String → Option JwtPayload) (sec : Option String) (tz : Int)
      (db : List ReceiptRow) (req : ExportReq) (u : String),
      authenticate verify sec req.authHeader = .ok u →
      validIdFormat req.pathId = true →
      (∀ r ∈ db, r.id = req.pathId → r.user_id ≠ u) →
      exportHandler verify sec tz (some db) req = .err 404 ("Receipt not found") ∧
      (∀ db2 : List ReceiptRow, (∀ r ∈ db2, r.id ≠ req.pathId) →
          exportHandler verify sec tz (some db) req =
            exportHandler verify sec tz (some db2) req) ∧
      (∀ (db3 : List ReceiptRow) (rid uid : String) (row : ReceiptRow),
          queryReceipt db3 rid uid = .found (some row) →
          row.id = rid ∧ row.user_id = uid) := by
  intro verify sec tz db req u hau hid hown
  have hq : ∀ dbx : List ReceiptRow, (∀ r ∈ dbx, r.id = req.pathId → r.user_id ≠ u) →
      queryReceipt dbx req.pathId u = .found none := by
    intro dbx hx
    unfold queryReceipt
    have hnil : dbx.filter (fun r => decide (r.id = req.pathId ∧ r.user_id = u)) = [] := by
      rw [List.filter_eq_nil_iff]
      intro r hr
      simp only [decide_eq_true_eq, not_and]
      intro hidr
      exact hx r hr hidr
    rw [hnil]
  have h404 : exportHandler verify sec tz (some db) req = .err 404 ("Receipt not found") := by
    unfold exportHandler
    rw [hau]
    simp only [hid, Bool.not_true, Bool.false_eq_true, if_false]
    rw [hq db hown]
  refine ⟨h404, ?_, ?_⟩
  · intro db2 h2
    have h404b : exportHandler verify sec tz (some db2) req =
        .err 404 ("Receipt not found") := by
      unfold exportHandler
      rw [hau]
      simp only [hid, Bool.not_true, Bool.false_eq_true, if_false]
      rw [hq db2 (fun r hr hidr => absurd hidr (h2 r hr))]
    rw [h404, h404b]
  · intro db3 rid uid row h
    unfold queryReceipt at h
    rcases hf : db3.filter (fun r => decide (r.id = rid ∧ r.user_id = uid)) with _ | ⟨r, _ | ⟨r2, rest⟩⟩ <;>
      rw [hf] at h
    · cases h
    · have hrow : r = row := by
        cases h
        rfl
      subst hrow
      have hr : r ∈ db3.filter (fun r => decide (r.id = rid ∧ r.user_id = uid)) := by
        rw [hf]
        exact List.mem_singleton_self r
      have := List.mem_filter.mp hr
      simpa using this.2
    · cases h

/-- C1 witness: a verified subject `user1` requesting a well-formed id whose
only stored row belongs to `user2` receives exactly the 404 response. -/
theorem claim1_witness :
    exportHandler
        (fun t s => if t = "tok123" ∧ s = "secret1" then some ⟨some (.str ("user1"))⟩ else none)
        (some ("secret1")) 0
        (some [⟨"aaaaaaaa-bbbb-cccc-dddd-eeeeeeeeeeee", "user2",
               .str ("Cafe"), .null, .null, .null, .null, []⟩])
        ⟨some ("Bearer tok123"), "aaaaaaaa-bbbb-cccc-dddd-eeeeeeeeeeee"⟩ =
      .err 404 ("Receipt not found") :=
  (claim1_owner_mismatch_404
      (fun t s => if t = "tok123" ∧ s = "secret1" then some ⟨some (.str ("user1"))⟩ else none)
      (some ("secret1")) 0
      [⟨"aaaaaaaa-bbbb-cccc-dddd-eeeeeeeeeeee", "user2",
        .str ("Cafe"), .null, .null, .null, .null, []⟩]
      ⟨some ("Bearer tok123"), "aaaaaaaa-bbbb-cccc-dddd-eeeeeeeeeeee"⟩
      ("user1") rfl (by decide) (by decide)).1

end Receiptly
